import Mathlib

/-!
Verification development for the StellarLend liquidation and collateral-swap
routing engine. The repository ships only the Soroban test suite for this
engine; the engine itself (lending pool liquidation, AMM swap router,
callback validator) is reconstructed here directly from the design
specification, as a shallow embedding: addresses and asset identifiers are
natural numbers, i128 amounts are unbounded integers, storage maps are
functions, and every operation returns its post-state explicitly so that
atomicity of failed calls is a provable statement.

Numeric convention (spec section 6): monetary values are fixed-point integers
with 7 decimals (1.0 = 10,000,000); percentage parameters are basis points
(10000 = 100%). All divisions in the engine are integer floor divisions,
which for the positive divisors used here coincides with Int division.
-/

namespace StellarLend

/-- Fixed-point scale: 1.0 in 7-decimal fixed point. -/
def FP_ONE : Int := 10000000

/-- Modelled from the spec: sentinel for an infinite health factor when the
debt value is zero (spec 4.1 represents HF as "never liquidatable" instead of
a division fault); the sentinel is the largest i128 value. -/
def HF_INFINITY : Int := 170141183460469231731687303715884105727

/-- Modelled from the spec: protocol-wide close factor, fixed at 5000 bps
(50%) per spec 4.2. -/
def CLOSE_FACTOR_BPS : Int := 5000

/-- Modelled from the spec: per-asset reserve configuration (spec section 3,
Reserve): collateral factor and liquidation bonus in basis points, activity
flag and collateral eligibility flag. -/
structure ReserveConfig where
  collateral_factor : Nat
  liquidation_bonus : Nat
  is_active : Bool
  can_be_collateral : Bool
deriving DecidableEq

/-- Modelled from the spec: the six-field liquidation event
(liquidator, borrower, debt_asset, collateral_asset, repay_amount,
seized_collateral), spec section 3 and section 6. -/
structure LiquidationEvent where
  liquidator : Nat
  borrower : Nat
  debt_asset : Nat
  collateral_asset : Nat
  repay_amount : Int
  seized_collateral : Int
deriving DecidableEq

/-- Ordered payload of a liquidation event, as checked by indexers:
index 0 liquidator, 1 borrower, 2 debt asset, 3 collateral asset,
4 repay amount, 5 seized collateral. -/
def LiquidationEvent.payload (e : LiquidationEvent) : List Int :=
  [(e.liquidator : Int), (e.borrower : Int), (e.debt_asset : Int),
   (e.collateral_asset : Int), e.repay_amount, e.seized_collateral]

/-- Modelled from the spec: process-wide lending-pool state (spec section 3
and section 9): pause flag, reserve registry, oracle prices, per-user
per-asset collateral and debt balances, per-asset aggregate reserve, and the
append-only liquidation event log. The lending pool implementation itself is
absent from the repository sources; only its test suite is present. -/
structure LendingState where
  paused : Bool
  reserves : List (Nat × ReserveConfig)
  prices : Nat → Int
  collateral : Nat → Nat → Int
  debt : Nat → Nat → Int
  totalReserve : Nat → Int
  events : List LiquidationEvent

/-- Reserve registry lookup for one asset. -/
def lookupReserve (st : LendingState) (a : Nat) : Option ReserveConfig :=
  (st.reserves.find? (fun p => p.fst == a)).map Prod.snd

/-- Modelled from the spec: one collateral-value term of the health factor
sum (spec 4.1): balance x price x collateral_factor_bps / 10000 for assets
flagged can_be_collateral, floor division. -/
def collTerm (st : LendingState) (u : Nat) (p : Nat × ReserveConfig) : Int :=
  if p.snd.can_be_collateral then
    st.collateral u p.fst * st.prices p.fst * (p.snd.collateral_factor : Int) / 10000
  else 0

/-- Modelled from the spec: total risk-weighted collateral value of a user
(spec 4.1), summed over the registered reserves. -/
def collValue (st : LendingState) (u : Nat) : Int :=
  st.reserves.foldl (fun acc p => acc + collTerm st u p) 0

/-- Modelled from the spec: total debt value of a user (spec 4.1):
sum of debt balance x price over the registered reserves. -/
def debtValue (st : LendingState) (u : Nat) : Int :=
  st.reserves.foldl (fun acc p => acc + st.debt u p.fst * st.prices p.fst) 0

/-- Modelled from the spec: the health factor calculator (spec 4.1):
HF = collateral value x 10^7 / debt value in 7-decimal fixed point, with the
infinite sentinel when the debt value is zero. -/
def get_health_factor (st : LendingState) (u : Nat) : Int :=
  if debtValue st u = 0 then HF_INFINITY
  else collValue st u * FP_ONE / debtValue st u

/-- Modelled from the spec: a position is liquidatable iff its health factor
is strictly below 1.0 (spec 4.1). -/
def is_liquidatable (st : LendingState) (u : Nat) : Bool :=
  decide (get_health_factor st u < FP_ONE)

/-- Modelled from the spec: close-factor cap (spec 4.2):
max_repay = current debt x close_factor_bps / 10000, floor division. -/
def maxRepay (debt : Int) : Int :=
  debt * CLOSE_FACTOR_BPS / 10000

/-- Modelled from the spec: incentive distributor seizure amount (spec 4.3):
seized = repay x (10000 + liquidation_bonus_bps) / 10000, floor division. -/
def seizedAmount (repay : Int) (bonus : Nat) : Int :=
  repay * (10000 + (bonus : Int)) / 10000

/-- Pointwise update of a two-key balance map. -/
def setBal (f : Nat → Nat → Int) (u a : Nat) (v : Int) : Nat → Nat → Int :=
  fun u2 a2 => if u2 = u ∧ a2 = a then v else f u2 a2

/-- Pointwise update of a one-key reserve map. -/
def setRes (f : Nat → Int) (a : Nat) (v : Int) : Nat → Int :=
  fun a2 => if a2 = a then v else f a2

/-- Modelled from the spec: the atomic apply step of the liquidation engine
(spec 4.4): debt of the borrower decreases by the repay amount, the seized
collateral moves from borrower to liquidator, the debt-asset reserve gains
the inbound repay, the collateral-asset reserve loses the seized amount, and
the six-field event is appended. -/
def applyLiquidation (st : LendingState) (liq bor da ca : Nat)
    (repay seized : Int) : LendingState :=
  let c1 := setBal st.collateral bor ca (st.collateral bor ca - seized)
  let r1 := setRes st.totalReserve da (st.totalReserve da + repay)
  { st with
    collateral := setBal c1 liq ca (c1 liq ca + seized)
    debt := setBal st.debt bor da (st.debt bor da - repay)
    totalReserve := setRes r1 ca (r1 ca - seized)
    events := st.events ++ [⟨liq, bor, da, ca, repay, seized⟩] }

/-- Modelled from the spec: the liquidation engine (spec 4.4), checked form.
The lending pool implementation is absent from the repository sources.
Validation order follows the spec: protocol pause, nonzero debt in the
specified debt asset, no self-liquidation, positive repay amount, collateral
asset registered and actually held, health factor below 1.0, close-factor
cap, and sufficiency of the borrower collateral for the seizure. A failed
call returns the pre-state unchanged with no result; a successful call
returns the applied state and the seized amount. -/
def liquidate (st : LendingState) (liq bor da ca : Nat) (repay : Int) :
    LendingState × Option Int :=
  if st.paused then (st, none)
  else if st.debt bor da ≤ 0 then (st, none)
  else if liq = bor then (st, none)
  else if repay ≤ 0 then (st, none)
  else
    match lookupReserve st ca with
    | none => (st, none)
    | some cfg =>
      if st.collateral bor ca ≤ 0 then (st, none)
      else if is_liquidatable st bor = false then (st, none)
      else if maxRepay (st.debt bor da) < repay then (st, none)
      else if st.collateral bor ca < seizedAmount repay cfg.liquidation_bonus then (st, none)
      else (applyLiquidation st liq bor da ca repay (seizedAmount repay cfg.liquidation_bonus),
            some (seizedAmount repay cfg.liquidation_bonus))

/-- All validation steps of the liquidation engine hold (spec 4.4, steps 1-8). -/
def liqOk (st : LendingState) (l b da ca : Nat) (r : Int) : Prop :=
  st.paused = false ∧ 0 < st.debt b da ∧ l ≠ b ∧ 0 < r ∧
  ∃ cfg, lookupReserve st ca = some cfg ∧ 0 < st.collateral b ca ∧
    is_liquidatable st b = true ∧ r ≤ maxRepay (st.debt b da) ∧
    seizedAmount r cfg.liquidation_bonus ≤ st.collateral b ca

lemma liquidate_eq_pos (st : LendingState) (l b da ca : Nat) (r : Int)
    (cfg : ReserveConfig)
    (hp : st.paused = false) (hd : 0 < st.debt b da) (hlb : l ≠ b) (hr : 0 < r)
    (hcfg : lookupReserve st ca = some cfg) (hc : 0 < st.collateral b ca)
    (hliq : is_liquidatable st b = true) (hcap : r ≤ maxRepay (st.debt b da))
    (hs : seizedAmount r cfg.liquidation_bonus ≤ st.collateral b ca) :
    liquidate st l b da ca r =
      (applyLiquidation st l b da ca r (seizedAmount r cfg.liquidation_bonus),
       some (seizedAmount r cfg.liquidation_bonus)) := by
  have h2 : ¬ st.debt b da ≤ 0 := by omega
  have h4 : ¬ r ≤ 0 := by omega
  have h6 : ¬ st.collateral b ca ≤ 0 := by omega
  have h8 : ¬ maxRepay (st.debt b da) < r := by omega
  have h9 : ¬ st.collateral b ca < seizedAmount r cfg.liquidation_bonus := by omega
  simp [liquidate, hp, h2, hlb, h4, hcfg, h6, hliq, h8, h9]

lemma liquidate_eq_neg (st : LendingState) (l b da ca : Nat) (r : Int)
    (h : ¬ liqOk st l b da ca r) : liquidate st l b da ca r = (st, none) := by
  unfold liquidate
  by_cases h1 : st.paused = true
  · simp [h1]
  by_cases h2 : st.debt b da ≤ 0
  · simp [h1, h2]
  by_cases h3 : l = b
  · simp [h1, h2, h3]
  by_cases h4 : r ≤ 0
  · simp [h1, h2, h3, h4]
  cases hcfg : lookupReserve st ca with
  | none => simp [h1, h2, h3, h4, hcfg]
  | some cfg =>
    by_cases h6 : st.collateral b ca ≤ 0
    · simp [h1, h2, h3, h4, hcfg, h6]
    by_cases h7 : is_liquidatable st b = false
    · simp [h1, h2, h3, h4, hcfg, h6, h7]
    by_cases h8 : maxRepay (st.debt b da) < r
    · simp [h1, h2, h3, h4, hcfg, h6, h7, h8]
    by_cases h9 : st.collateral b ca < seizedAmount r cfg.liquidation_bonus
    · simp [h1, h2, h3, h4, hcfg, h6, h7, h8, h9]
    · exact absurd ⟨by simpa using h1, by omega, h3, by omega, cfg, hcfg, by omega,
        by simpa using h7, by omega, by omega⟩ h

lemma liquidate_none_fst (st : LendingState) (l b da ca : Nat) (r : Int)
    (h : (liquidate st l b da ca r).2 = none) :
    (liquidate st l b da ca r).1 = st := by
  by_cases hok : liqOk st l b da ca r
  · obtain ⟨hp, hd, hlb, hr, cfg, hcfg, hc, hliq, hcap, hs⟩ := hok
    rw [liquidate_eq_pos st l b da ca r cfg hp hd hlb hr hcfg hc hliq hcap hs] at h
    simp at h
  · rw [liquidate_eq_neg st l b da ca r hok]

lemma liquidate_some_elim (st : LendingState) (l b da ca : Nat) (r s : Int)
    (h : (liquidate st l b da ca r).2 = some s) :
    st.paused = false ∧ 0 < st.debt b da ∧ l ≠ b ∧ 0 < r ∧
    ∃ cfg, lookupReserve st ca = some cfg ∧ 0 < st.collateral b ca ∧
      is_liquidatable st b = true ∧ r ≤ maxRepay (st.debt b da) ∧
      s = seizedAmount r cfg.liquidation_bonus ∧
      seizedAmount r cfg.liquidation_bonus ≤ st.collateral b ca ∧
      (liquidate st l b da ca r).1 =
        applyLiquidation st l b da ca r (seizedAmount r cfg.liquidation_bonus) := by
  by_cases hok : liqOk st l b da ca r
  · obtain ⟨hp, hd, hlb, hr, cfg, hcfg, hc, hliq, hcap, hs⟩ := hok
    have heq := liquidate_eq_pos st l b da ca r cfg hp hd hlb hr hcfg hc hliq hcap hs
    rw [heq] at h
    simp only [Option.some.injEq] at h
    exact ⟨hp, hd, hlb, hr, cfg, hcfg, hc, hliq, hcap, h.symm, hs, by rw [heq]⟩
  · rw [liquidate_eq_neg st l b da ca r hok] at h
    simp at h

lemma setBal_same (f : Nat → Nat → Int) (u a : Nat) (v : Int) :
    setBal f u a v u a = v := by simp [setBal]

lemma setBal_ne_user (f : Nat → Nat → Int) (u a u2 a2 : Nat) (v : Int)
    (h : u2 ≠ u) : setBal f u a v u2 a2 = f u2 a2 := by
  simp [setBal, h]

lemma setRes_same (f : Nat → Int) (a : Nat) (v : Int) : setRes f a v a = v := by
  simp [setRes]

lemma setRes_ne (f : Nat → Int) (a a2 : Nat) (v : Int) (h : a2 ≠ a) :
    setRes f a v a2 = f a2 := by simp [setRes, h]

/-- Claim C2: for every position, is_liquidatable holds iff the health factor
is strictly below 1.0 (10,000,000 in 7-decimal fixed point), and a position
with zero total debt value receives the infinite-HF sentinel and is never
liquidatable, with no division fault. -/
theorem health_factor_liquidatable_iff (st : LendingState) (u : Nat) :
    (is_liquidatable st u = true ↔ get_health_factor st u < FP_ONE) ∧
    (debtValue st u = 0 →
      get_health_factor st u = HF_INFINITY ∧ is_liquidatable st u = false) := by
  constructor
  · simp [is_liquidatable]
  · intro hz
    constructor
    · simp [get_health_factor, hz]
    · simp [is_liquidatable, get_health_factor, hz, HF_INFINITY, FP_ONE]

/-- Concrete collateral-only position used as a zero-debt witness. -/
def stZeroDebt : LendingState where
  paused := false
  reserves := [(0, ⟨7500, 500, true, true⟩)]
  prices := fun _ => 10000000
  collateral := fun u a => if u = 2 ∧ a = 0 then 1000000000 else 0
  debt := fun _ _ => 0
  totalReserve := fun _ => 10000000000
  events := []

theorem health_factor_liquidatable_iff_witness :
    get_health_factor stZeroDebt 2 = HF_INFINITY ∧
    is_liquidatable stZeroDebt 2 = false :=
  (health_factor_liquidatable_iff stZeroDebt 2).2 (by decide)

/-- Claim C1: every liquidation call with repay_amount above
current_debt x 5000 / 10000 (integer floor division on the debt outstanding
at call time) is rejected, while repay_amount equal to that cap is accepted
whenever the remaining validation steps pass; the cap has no bypass for
deeply undercollateralized positions. -/
theorem close_factor_cap_boundary (st : LendingState) (l b da ca : Nat)
    (r r2 : Int) (cfg : ReserveConfig) :
    (maxRepay (st.debt b da) < r → (liquidate st l b da ca r).2 = none) ∧
    (st.paused = false → 0 < st.debt b da → l ≠ b → 0 < r2 →
      r2 = maxRepay (st.debt b da) →
      lookupReserve st ca = some cfg → 0 < st.collateral b ca →
      is_liquidatable st b = true →
      seizedAmount r2 cfg.liquidation_bonus ≤ st.collateral b ca →
      (liquidate st l b da ca r2).2 =
        some (seizedAmount r2 cfg.liquidation_bonus)) := by
  constructor
  · intro hover
    cases h : (liquidate st l b da ca r).2 with
    | none => rfl
    | some s =>
      obtain ⟨-, -, -, -, -, -, -, -, hcap, -⟩ := liquidate_some_elim st l b da ca r s h
      omega
  · intro hp hd hlb hr2 hcapeq hcfg hc hliq hs
    rw [liquidate_eq_pos st l b da ca r2 cfg hp hd hlb hr2 hcfg hc hliq (le_of_eq hcapeq) hs]

/-- Concrete undercollateralized position (collateral 100 units at factor
75%, debt 90 units, unit prices): health factor 0.8333. -/
def stU : LendingState where
  paused := false
  reserves := [(0, ⟨7500, 500, true, true⟩), (1, ⟨7500, 500, true, false⟩)]
  prices := fun _ => 10000000
  collateral := fun u a => if u = 2 ∧ a = 0 then 1000000000 else 0
  debt := fun u a => if u = 2 ∧ a = 1 then 900000000 else 0
  totalReserve := fun _ => 10000000000
  events := []

theorem close_factor_cap_boundary_witness :
    (liquidate stU 1 2 1 0 450000001).2 = none ∧
    (liquidate stU 1 2 1 0 450000000).2 = some 472500000 := by
  have h := close_factor_cap_boundary stU 1 2 1 0 450000001 450000000
    ⟨7500, 500, true, true⟩
  exact ⟨h.1 (by decide), h.2 (by decide) (by decide) (by decide) (by decide)
    (by decide) (by decide) (by decide) (by decide) (by decide)⟩

/-- Claim C3: on every successful liquidation with repay amount r against a
collateral reserve with bonus b bps, the liquidator collateral balance grows
by exactly r x (10000 + b) / 10000 (floor) and the borrower collateral
balance shrinks by exactly the same amount, which is also the returned
seized amount. -/
theorem seizure_amounts_exact (st : LendingState) (l b da ca : Nat)
    (r s : Int) (cfg : ReserveConfig)
    (hcfg : lookupReserve st ca = some cfg)
    (h : (liquidate st l b da ca r).2 = some s) :
    s = seizedAmount r cfg.liquidation_bonus ∧
    (liquidate st l b da ca r).1.collateral l ca =
      st.collateral l ca + seizedAmount r cfg.liquidation_bonus ∧
    (liquidate st l b da ca r).1.collateral b ca =
      st.collateral b ca - seizedAmount r cfg.liquidation_bonus := by
  obtain ⟨-, -, hlb, -, cfg2, hcfg2, -, -, -, hseq, -, hfst⟩ :=
    liquidate_some_elim st l b da ca r s h
  rw [hcfg] at hcfg2
  cases hcfg2
  refine ⟨hseq, ?_, ?_⟩
  · rw [hfst]
    simp only [applyLiquidation, setBal_same]
    rw [setBal_ne_user _ _ _ _ _ _ hlb]
  · rw [hfst]
    simp only [applyLiquidation]
    rw [setBal_ne_user _ _ _ _ _ _ (Ne.symm hlb), setBal_same]

theorem seizure_amounts_exact_witness :
    (210000000 : Int) = seizedAmount 200000000 500 ∧
    (liquidate stU 1 2 1 0 200000000).1.collateral 1 0 =
      stU.collateral 1 0 + seizedAmount 200000000 500 ∧
    (liquidate stU 1 2 1 0 200000000).1.collateral 2 0 =
      stU.collateral 2 0 - seizedAmount 200000000 500 :=
  seizure_amounts_exact stU 1 2 1 0 200000000 210000000
    ⟨7500, 500, true, true⟩ (by decide) (by decide)

/-- Claim C4: whenever the computed seizure exceeds the borrower available
balance of the collateral asset, the liquidation call fails and no balance
is mutated; the seizure is never clamped to the available collateral. -/
theorem insufficient_collateral_aborts (st : LendingState) (l b da ca : Nat)
    (r : Int) (cfg : ReserveConfig)
    (hcfg : lookupReserve st ca = some cfg)
    (hlt : st.collateral b ca < seizedAmount r cfg.liquidation_bonus) :
    (liquidate st l b da ca r).2 = none ∧ (liquidate st l b da ca r).1 = st := by
  have hnone : (liquidate st l b da ca r).2 = none := by
    cases h : (liquidate st l b da ca r).2 with
    | none => rfl
    | some s =>
      obtain ⟨-, -, -, -, cfg2, hcfg2, -, -, -, -, hs, -⟩ :=
        liquidate_some_elim st l b da ca r s h
      rw [hcfg] at hcfg2
      cases hcfg2
      omega
  exact ⟨hnone, liquidate_none_fst st l b da ca r hnone⟩

/-- Concrete deeply distressed position whose collateral (0.1 units) cannot
cover the seizure for even a small repay. -/
def stPoor : LendingState where
  paused := false
  reserves := [(0, ⟨7500, 500, true, true⟩), (1, ⟨7500, 500, true, false⟩)]
  prices := fun _ => 10000000
  collateral := fun u a => if u = 2 ∧ a = 0 then 1000000 else 0
  debt := fun u a => if u = 2 ∧ a = 1 then 900000000 else 0
  totalReserve := fun _ => 10000000000
  events := []

theorem insufficient_collateral_aborts_witness :
    (liquidate stPoor 1 2 1 0 5000000).2 = none ∧
    (liquidate stPoor 1 2 1 0 5000000).1 = stPoor :=
  insufficient_collateral_aborts stPoor 1 2 1 0 5000000
    ⟨7500, 500, true, true⟩ (by decide) (by decide)

/-- Claim C5: every liquidation call failing a validation step
(paused protocol, self-liquidation, nonpositive repay, unknown borrower or
wrong debt asset, wrong or unheld collateral asset, or repay above the
close-factor cap) returns failure and leaves every balance, every reserve
and the event log exactly unchanged. -/
theorem failed_liquidation_leaves_state (st : LendingState) (l b da ca : Nat)
    (r : Int)
    (h : st.paused = true ∨ l = b ∨ r ≤ 0 ∨ st.debt b da ≤ 0 ∨
      st.collateral b ca ≤ 0 ∨ lookupReserve st ca = none ∨
      maxRepay (st.debt b da) < r) :
    liquidate st l b da ca r = (st, none) := by
  apply liquidate_eq_neg
  rintro ⟨hp, hd, hlb, hr, cfg, hcfg, hc, hliq, hcap, hs⟩
  rcases h with h | h | h | h | h | h | h
  · rw [hp] at h; exact Bool.false_ne_true h
  · exact hlb h
  · omega
  · omega
  · omega
  · rw [h] at hcfg; exact Option.noConfusion hcfg
  · omega

theorem failed_liquidation_leaves_state_witness :
    liquidate stU 2 2 1 0 200000000 = (stU, none) :=
  failed_liquidation_leaves_state stU 2 2 1 0 200000000 (Or.inr (Or.inl rfl))

/-- Concrete position holding both its debt and its collateral in the same
asset 0 (nothing in the validation order of spec 4.4 forbids this):
collateral 100 units, debt 150 units, health factor 0.5. -/
def stSame : LendingState where
  paused := false
  reserves := [(0, ⟨7500, 500, true, true⟩)]
  prices := fun _ => 10000000
  collateral := fun u a => if u = 2 ∧ a = 0 then 1000000000 else 0
  debt := fun u a => if u = 2 ∧ a = 0 then 1500000000 else 0
  totalReserve := fun _ => 10000000000
  events := []

/-- Claim C6 counterexample: a successful liquidation whose debt asset and
collateral asset coincide; the apply step of spec 4.4 credits the inbound
repay to the same aggregate reserve it debits the seizure from, so the
reserve drops by seized minus repay instead of by the seized amount. -/
theorem reserve_delta_same_asset_cex :
    (liquidate stSame 1 2 0 0 200000000).2 = some 210000000 ∧
    (liquidate stSame 1 2 0 0 200000000).1.totalReserve 0 ≠
      stSame.totalReserve 0 - 210000000 := by
  constructor
  · decide
  · decide

/-- Claim C6 (amended): on every successful liquidation whose debt asset
differs from the collateral asset, the aggregate total_reserve of the
collateral asset decreases by exactly the seized amount. -/
theorem reserve_decreases_by_seized (st : LendingState) (l b da ca : Nat)
    (r s : Int)
    (h : (liquidate st l b da ca r).2 = some s) (hda : da ≠ ca) :
    (liquidate st l b da ca r).1.totalReserve ca = st.totalReserve ca - s := by
  obtain ⟨-, -, -, -, cfg, -, -, -, -, hseq, -, hfst⟩ :=
    liquidate_some_elim st l b da ca r s h
  rw [hfst, hseq]
  simp only [applyLiquidation, setRes_same]
  rw [setRes_ne _ _ _ _ (Ne.symm hda)]

theorem reserve_decreases_by_seized_witness :
    (liquidate stU 1 2 1 0 200000000).1.totalReserve 0 =
      stU.totalReserve 0 - 210000000 :=
  reserve_decreases_by_seized stU 1 2 1 0 200000000 210000000
    (by decide) (by decide)

/-- Claim C7: every successful liquidation appends exactly one
LiquidationExecuted event whose six-field payload carries the liquidator at
index 0, the borrower at index 1 and the repay amount at index 4, and every
failed liquidation call leaves the event log without any new event. -/
theorem liquidation_event_payload (st : LendingState) (l b da ca : Nat)
    (r r2 s : Int) :
    ((liquidate st l b da ca r).2 = some s →
      (liquidate st l b da ca r).1.events =
        st.events ++ [⟨l, b, da, ca, r, s⟩] ∧
      (LiquidationEvent.payload ⟨l, b, da, ca, r, s⟩).length = 6 ∧
      (LiquidationEvent.payload ⟨l, b, da, ca, r, s⟩)[0]? = some (l : Int) ∧
      (LiquidationEvent.payload ⟨l, b, da, ca, r, s⟩)[1]? = some (b : Int) ∧
      (LiquidationEvent.payload ⟨l, b, da, ca, r, s⟩)[4]? = some r) ∧
    ((liquidate st l b da ca r2).2 = none →
      (liquidate st l b da ca r2).1.events = st.events) := by
  constructor
  · intro h
    obtain ⟨-, -, -, -, cfg, -, -, -, -, hseq, -, hfst⟩ :=
      liquidate_some_elim st l b da ca r s h
    refine ⟨?_, rfl, rfl, rfl, rfl⟩
    rw [hfst, hseq]
    rfl
  · intro h
    rw [liquidate_none_fst st l b da ca r2 h]

theorem liquidation_event_payload_witness :
    ((liquidate stU 1 2 1 0 200000000).1.events =
      stU.events ++ [⟨1, 2, 1, 0, 200000000, 210000000⟩] ∧
    (LiquidationEvent.payload ⟨1, 2, 1, 0, 200000000, 210000000⟩).length = 6 ∧
    (LiquidationEvent.payload ⟨1, 2, 1, 0, 200000000, 210000000⟩)[0]? = some 1 ∧
    (LiquidationEvent.payload ⟨1, 2, 1, 0, 200000000, 210000000⟩)[1]? = some 2 ∧
    (LiquidationEvent.payload ⟨1, 2, 1, 0, 200000000, 210000000⟩)[4]? =
      some 200000000) ∧
    (liquidate stU 1 2 1 0 0).1.events = stU.events := by
  have h := liquidation_event_payload stU 1 2 1 0 200000000 0 210000000
  exact ⟨h.1 (by decide), h.2 (by decide)⟩

/-- Concrete deeply undercollateralized position across two assets
(health factor 0.5): a partial liquidation strictly worsens its health. -/
def stDeep : LendingState where
  paused := false
  reserves := [(0, ⟨7500, 500, true, true⟩), (1, ⟨7500, 500, true, false⟩)]
  prices := fun _ => 10000000
  collateral := fun u a => if u = 2 ∧ a = 0 then 1000000000 else 0
  debt := fun u a => if u = 2 ∧ a = 1 then 1500000000 else 0
  totalReserve := fun _ => 10000000000
  events := []

/-- Claim C10 counterexample: a successful partial liquidation of an
undercollateralized position with nonzero remaining debt after which the
health factor strictly decreases (0.5 to about 0.4558): the seized
collateral is worth more, even after the 75% factor, than the share of
health the repaid debt restores. -/
theorem hf_can_decrease_cex :
    (liquidate stDeep 1 2 1 0 200000000).2 = some 210000000 ∧
    0 < (liquidate stDeep 1 2 1 0 200000000).1.debt 2 1 ∧
    get_health_factor ((liquidate stDeep 1 2 1 0 200000000).1) 2 <
      get_health_factor stDeep 2 := by
  refine ⟨by decide, by decide, by decide⟩

/-- Claim C10 (amended): after a successful liquidation with nonzero
remaining debt value, the borrower health factor strictly increases whenever
the post-call risk-weighted collateral value, scaled to fixed point, reaches
the next fixed-point step above the pre-call health factor; for deeply
undercollateralized positions this premise can fail and the health factor
strictly decreases instead. -/
theorem hf_improves_when_value_gains (st : LendingState) (l b da ca : Nat)
    (r s : Int)
    (_h : (liquidate st l b da ca r).2 = some s)
    (hD : 0 < debtValue ((liquidate st l b da ca r).1) b)
    (hC : (get_health_factor st b + 1) *
        debtValue ((liquidate st l b da ca r).1) b ≤
      collValue ((liquidate st l b da ca r).1) b * FP_ONE) :
    get_health_factor st b < get_health_factor ((liquidate st l b da ca r).1) b := by
  have hne : ¬ debtValue ((liquidate st l b da ca r).1) b = 0 := by omega
  have step : get_health_factor st b + 1 ≤
      collValue ((liquidate st l b da ca r).1) b * FP_ONE /
        debtValue ((liquidate st l b da ca r).1) b :=
    (Int.le_ediv_iff_mul_le hD).mpr hC
  have hrw : get_health_factor ((liquidate st l b da ca r).1) b =
      collValue ((liquidate st l b da ca r).1) b * FP_ONE /
        debtValue ((liquidate st l b da ca r).1) b := by
    unfold get_health_factor
    rw [if_neg hne]
  rw [hrw]
  omega

theorem hf_improves_when_value_gains_witness :
    get_health_factor stU 2 <
      get_health_factor ((liquidate stU 1 2 1 0 200000000).1) 2 :=
  hf_improves_when_value_gains stU 1 2 1 0 200000000 210000000
    (by decide) (by decide) (by decide)

/-- Modelled from the spec: a supported token pair of a registered swap
protocol, the native asset encoded as an absent address (spec section 3 and
section 9, tagged-variant note). -/
structure TokenPair where
  token_a : Option Nat
  token_b : Option Nat
deriving DecidableEq

/-- Modelled from the spec: AMM protocol configuration (spec section 3):
address, display name, enabled flag, fee tier, swap amount bounds and the
supported token pairs. -/
structure AmmProtocolConfig where
  protocol_address : Nat
  protocol_name : Nat
  enabled : Bool
  fee_tier : Nat
  min_swap_amount : Int
  max_swap_amount : Int
  supported_pairs : List TokenPair
deriving DecidableEq

/-- Modelled from the spec: the admin-owned AMM settings singleton
(spec section 3). -/
structure AmmSettings where
  default_slippage : Nat
  max_slippage : Nat
  swap_enabled : Bool
  liquidity_enabled : Bool
  auto_swap_threshold : Int
deriving DecidableEq

/-- Modelled from the spec: one append-only swap history record
(spec section 3). -/
structure SwapRecord where
  user : Nat
  amount_in : Int
  amount_out : Int
  protocol : Nat
  timestamp : Nat
deriving DecidableEq

/-- Modelled from the spec: swap parameters for an explicit execute_swap
call (spec section 3): protocol reference, asset identifiers, amounts,
slippage tolerance in bps and an absolute deadline. -/
structure SwapParams where
  protocol : Nat
  token_in : Option Nat
  token_out : Option Nat
  amount_in : Int
  min_amount_out : Int
  slippage_tolerance : Nat
  deadline : Nat
deriving DecidableEq

/-- Modelled from the spec: callback payload from the swap venue
(spec section 3): per-protocol nonce, operation tag, user, expected amounts
and an absolute deadline. -/
structure AmmCallbackData where
  nonce : Nat
  operation : Nat
  user : Nat
  expected_amounts : List Int
  deadline : Nat
deriving DecidableEq

/-- Modelled from the spec: process-wide AMM contract state (spec sections 3
and 9): settings singleton, protocol registry, per-user swap history and the
per-protocol next expected nonce (spec section 3 describes nonces as
per-protocol monotonic and used-once; a nonce other than the next expected
one is stale and never validates). The AMM implementation is absent from
the repository sources; only its test suite is present. -/
structure AmmState where
  settings : AmmSettings
  protocols : List AmmProtocolConfig
  history : List SwapRecord
  nextNonce : Nat → Nat

/-- Modelled from the spec: slippage formula of the swap router (spec 4.6
step 5): amount_out = amount_in x (10000 - slippage_bps) / 10000, floor
division. -/
def swapOutput (amount : Int) (slippage : Nat) : Int :=
  amount * (10000 - (slippage : Int)) / 10000

/-- Whether one protocol of the registry is enabled and supports the pair. -/
def protocolMatches (p : AmmProtocolConfig) (tin tout : Option Nat) : Bool :=
  p.enabled && p.supported_pairs.any fun pr => pr.token_a == tin && pr.token_b == tout

/-- Modelled from the spec: resolution of a registered, enabled protocol
supporting the requested pair (spec 4.6 step 3). -/
def findProtocolFor (st : AmmState) (tin tout : Option Nat) :
    Option AmmProtocolConfig :=
  st.protocols.find? (fun p => protocolMatches p tin tout)

/-- Modelled from the spec: auto_swap_for_collateral (spec 4.6 steps 1-5, 7):
rejects nonpositive amounts, amounts below the auto-swap threshold,
unresolvable or disabled protocols and amounts outside the protocol bounds;
otherwise swaps at the default slippage and appends one history record. The
swap router implementation is absent from the repository sources. -/
def auto_swap_for_collateral (st : AmmState) (caller : Nat)
    (target : Option Nat) (amount : Int) (now : Nat) : AmmState × Option Int :=
  if amount ≤ 0 then (st, none)
  else if amount < st.settings.auto_swap_threshold then (st, none)
  else
    match findProtocolFor st none target with
    | none => (st, none)
    | some p =>
      if amount < p.min_swap_amount then (st, none)
      else if p.max_swap_amount < amount then (st, none)
      else
        let out := swapOutput amount st.settings.default_slippage
        ({ st with history :=
            st.history ++ [⟨caller, amount, out, p.protocol_address, now⟩] },
         some out)

/-- Modelled from the spec: execute_swap (spec 4.6 step 6, sharing steps 1-5):
additionally rejects a slippage tolerance above the configured maximum and a
deadline strictly before the current time, resolves the named protocol, and
swaps at the caller-supplied slippage tolerance. -/
def execute_swap (st : AmmState) (caller : Nat) (params : SwapParams)
    (now : Nat) : AmmState × Option Int :=
  if params.amount_in ≤ 0 then (st, none)
  else if params.amount_in < st.settings.auto_swap_threshold then (st, none)
  else if st.settings.max_slippage < params.slippage_tolerance then (st, none)
  else if params.deadline < now then (st, none)
  else
    match st.protocols.find? (fun p => p.protocol_address == params.protocol) with
    | none => (st, none)
    | some p =>
      if protocolMatches p params.token_in params.token_out = false then (st, none)
      else if params.amount_in < p.min_swap_amount then (st, none)
      else if p.max_swap_amount < params.amount_in then (st, none)
      else
        let out := swapOutput params.amount_in params.slippage_tolerance
        ({ st with history :=
            st.history ++ [⟨caller, params.amount_in, out, p.protocol_address, now⟩] },
         some out)

lemma swapOutput_pos (a : Int) (s : Nat) (h : 10000 ≤ a * (10000 - (s : Int))) :
    0 < swapOutput a s := by
  have : (1 : Int) ≤ a * (10000 - (s : Int)) / 10000 :=
    (Int.le_ediv_iff_mul_le (by omega)).mpr (by omega)
  unfold swapOutput
  omega

lemma auto_swap_some_elim (st : AmmState) (c : Nat) (t : Option Nat)
    (a : Int) (now : Nat) (out : Int)
    (h : (auto_swap_for_collateral st c t a now).2 = some out) :
    out = swapOutput a st.settings.default_slippage := by
  unfold auto_swap_for_collateral at h
  repeat' split at h
  all_goals simp_all

lemma auto_swap_none_fst (st : AmmState) (c : Nat) (t : Option Nat)
    (a : Int) (now : Nat)
    (h : (auto_swap_for_collateral st c t a now).2 = none) :
    (auto_swap_for_collateral st c t a now).1 = st := by
  unfold auto_swap_for_collateral at *
  repeat' split at h
  all_goals simp_all

lemma execute_swap_some_elim (st : AmmState) (c : Nat) (params : SwapParams)
    (now : Nat) (out : Int)
    (h : (execute_swap st c params now).2 = some out) :
    out = swapOutput params.amount_in params.slippage_tolerance := by
  unfold execute_swap at h
  repeat' split at h
  all_goals simp_all

lemma execute_swap_none_fst (st : AmmState) (c : Nat) (params : SwapParams)
    (now : Nat)
    (h : (execute_swap st c params now).2 = none) :
    (execute_swap st c params now).1 = st := by
  unfold execute_swap at *
  repeat' split at h
  all_goals simp_all

/-- Degenerate but reachable router configuration: threshold 1, slippage
9999 bps, a protocol accepting amounts from 1; an accepted amount of 1
yields an output of zero. -/
def stEdge : AmmState where
  settings := ⟨9999, 9999, true, true, 1⟩
  protocols := [⟨9, 1, true, 30, 1, 1000000000, [⟨none, some 7⟩]⟩]
  history := []
  nextNonce := fun _ => 1

/-- Claim C8 counterexample: the router accepts the swap (amount 1, slippage
9999 bps, all validations of spec 4.6 pass) yet returns amount_out = 0,
refuting the strict positivity of accepted outputs. -/
theorem swap_accepts_zero_output_cex :
    (auto_swap_for_collateral stEdge 5 (some 7) 1 0).2 = some 0 := by
  decide

/-- Claim C8 (amended): every swap accepted by auto_swap_for_collateral or
execute_swap returns exactly amount_in x (10000 - slippage_bps) / 10000 with
floor division (at the default slippage for the former, the caller-supplied
tolerance for the latter), the output is strictly positive whenever
amount_in x (10000 - slippage_bps) reaches 10000 (which holds under the
suite settings), and every rejected input leaves the state, in particular
the swap history, unchanged. -/
theorem swap_router_formula (st st2 st3 st4 : AmmState) (c c2 c3 c4 : Nat)
    (t t2 : Option Nat) (a a2 : Int) (p3 p4 : SwapParams)
    (n n2 n3 n4 : Nat) (out out3 : Int) :
    ((auto_swap_for_collateral st c t a n).2 = some out →
      out = swapOutput a st.settings.default_slippage ∧
      (10000 ≤ a * (10000 - (st.settings.default_slippage : Int)) → 0 < out)) ∧
    ((auto_swap_for_collateral st2 c2 t2 a2 n2).2 = none →
      (auto_swap_for_collateral st2 c2 t2 a2 n2).1 = st2) ∧
    ((execute_swap st3 c3 p3 n3).2 = some out3 →
      out3 = swapOutput p3.amount_in p3.slippage_tolerance ∧
      (10000 ≤ p3.amount_in * (10000 - (p3.slippage_tolerance : Int)) →
        0 < out3)) ∧
    ((execute_swap st4 c4 p4 n4).2 = none →
      (execute_swap st4 c4 p4 n4).1 = st4) := by
  refine ⟨?_, auto_swap_none_fst st2 c2 t2 a2 n2, ?_,
    execute_swap_none_fst st4 c4 p4 n4⟩
  · intro h
    have hout := auto_swap_some_elim st c t a n out h
    exact ⟨hout, fun hge => hout ▸ swapOutput_pos a _ hge⟩
  · intro h
    have hout := execute_swap_some_elim st3 c3 p3 n3 out3 h
    exact ⟨hout, fun hge => hout ▸ swapOutput_pos p3.amount_in _ hge⟩

/-- Router state with the suite settings: default slippage 100 bps, max
1000 bps, auto-swap threshold 10000, one enabled protocol for the native
asset against token 7 with bounds [1000, 1000000000]. -/
def stAmm : AmmState where
  settings := ⟨100, 1000, true, true, 10000⟩
  protocols := [⟨9, 1, true, 30, 1000, 1000000000, [⟨none, some 7⟩]⟩]
  history := []
  nextNonce := fun _ => 1

theorem swap_router_formula_witness :
    ((14850 : Int) = swapOutput 15000 100 ∧ (0 : Int) < 14850) ∧
    (auto_swap_for_collateral stAmm 5 (some 7) 5000 0).1 = stAmm ∧
    ((19800 : Int) = swapOutput 20000 100 ∧ (0 : Int) < 19800) ∧
    (execute_swap stAmm 5 ⟨9, none, some 7, 20000, 1, 100, 1000⟩ 2000).1 =
      stAmm := by
  have h := swap_router_formula stAmm stAmm stAmm stAmm 5 5 5 5
    (some 7) (some 7) 15000 5000
    ⟨9, none, some 7, 20000, 1, 100, 3600⟩
    ⟨9, none, some 7, 20000, 1, 100, 1000⟩ 0 0 0 2000 14850 19800
  refine ⟨?_, h.2.1 (by decide), ?_, h.2.2.2 (by decide)⟩
  · have h1 := h.1 (by decide)
    exact ⟨h1.1, h1.2 (by decide)⟩
  · have h3 := h.2.2.1 (by decide)
    exact ⟨h3.1, h3.2 (by decide)⟩

/-- Modelled from the spec: whether the caller address equals a registered
and enabled protocol address (spec 4.7 condition a). -/
def isRegisteredEnabled (st : AmmState) (caller : Nat) : Bool :=
  match st.protocols.find? (fun p => p.protocol_address == caller) with
  | some p => p.enabled
  | none => false

/-- Modelled from the spec: the callback validator (spec 4.7): the caller
must be a registered and enabled protocol, the nonce must be the next
expected one for that protocol (per-protocol monotonic and used-once per
spec section 3, so a consumed or otherwise stale nonce never validates
again), and the deadline must not be in the past. On success the nonce is
consumed; any failure leaves the state unchanged. -/
def validate_amm_callback (st : AmmState) (caller : Nat)
    (cb : AmmCallbackData) (now : Nat) : AmmState × Bool :=
  if isRegisteredEnabled st caller = false then (st, false)
  else if cb.nonce ≠ st.nextNonce caller then (st, false)
  else if cb.deadline < now then (st, false)
  else ({ st with nextNonce :=
      fun a => if a = caller then cb.nonce + 1 else st.nextNonce a }, true)

lemma validate_true_elim (st : AmmState) (c : Nat) (cb : AmmCallbackData)
    (now : Nat)
    (h : (validate_amm_callback st c cb now).2 = true) :
    isRegisteredEnabled st c = true ∧ cb.nonce = st.nextNonce c ∧
    now ≤ cb.deadline ∧
    (validate_amm_callback st c cb now).1 =
      { st with nextNonce :=
          fun a => if a = c then cb.nonce + 1 else st.nextNonce a } := by
  unfold validate_amm_callback at *
  by_cases h1 : isRegisteredEnabled st c = false
  · rw [if_pos h1] at h
    simp at h
  rw [if_neg h1] at h ⊢
  by_cases h2 : cb.nonce ≠ st.nextNonce c
  · rw [if_pos h2] at h
    simp at h
  rw [if_neg h2] at h ⊢
  by_cases h3 : cb.deadline < now
  · rw [if_pos h3] at h
    simp at h
  rw [if_neg h3] at h ⊢
  exact ⟨by simpa using h1, by omega, by omega, rfl⟩

/-- Claim C9: validate_amm_callback accepts exactly when the caller is a
registered and enabled protocol, the nonce is the next expected (unconsumed)
one for that protocol, and the deadline is at or after the current time; any
failure leaves the state unchanged, and a consumed nonce is permanently
invalid: replaying the very callback that was accepted is rejected at any
later time. -/
theorem callback_validator_iff (st stB st2 : AmmState) (c cB : Nat)
    (cb cbB : AmmCallbackData) (now nowB now2 : Nat) :
    ((validate_amm_callback st c cb now).2 = true ↔
      (isRegisteredEnabled st c = true ∧ cb.nonce = st.nextNonce c ∧
        now ≤ cb.deadline)) ∧
    ((validate_amm_callback st c cb now).2 = false →
      (validate_amm_callback st c cb now).1 = st) ∧
    (validate_amm_callback stB cB cbB nowB = (st2, true) →
      (validate_amm_callback st2 cB cbB now2).2 = false) := by
  refine ⟨⟨?_, ?_⟩, ?_, ?_⟩
  · intro h
    obtain ⟨h1, h2, h3, -⟩ := validate_true_elim st c cb now h
    exact ⟨h1, h2, h3⟩
  · rintro ⟨h1, h2, h3⟩
    unfold validate_amm_callback
    rw [if_neg (by simp [h1]), if_neg (by omega), if_neg (by omega)]
  · intro h
    unfold validate_amm_callback at *
    repeat' split at h
    all_goals simp_all
  · intro h
    have h2 : (validate_amm_callback stB cB cbB nowB).2 = true := by
      rw [h]
    obtain ⟨h1, hn, hd, hfst⟩ := validate_true_elim stB cB cbB nowB h2
    have hst2 : st2 = { stB with nextNonce :=
        fun a => if a = cB then cbB.nonce + 1 else stB.nextNonce a } := by
      rw [h] at hfst
      exact hfst
    have hreg : isRegisteredEnabled st2 cB = isRegisteredEnabled stB cB := by
      rw [hst2]
      rfl
    have hnn : st2.nextNonce cB = cbB.nonce + 1 := by
      rw [hst2]
      simp
    unfold validate_amm_callback
    rw [if_neg (by simp [hreg, h1])]
    rw [if_pos (by omega)]

/-- Callback accepted by the suite-settings router: next nonce 1, deadline
in the future. -/
def cbOk : AmmCallbackData := ⟨1, 0, 4, [], 3600⟩

theorem callback_validator_iff_witness :
    (validate_amm_callback stAmm 8 cbOk 0).1 = stAmm ∧
    (validate_amm_callback ((validate_amm_callback stAmm 9 cbOk 0).1) 9 cbOk
      500).2 = false := by
  have h := callback_validator_iff stAmm stAmm
    ((validate_amm_callback stAmm 9 cbOk 0).1) 8 9 cbOk cbOk 0 0 500
  exact ⟨h.2.1 (by decide), h.2.2 (by rfl)⟩

end StellarLend
